import Mathlib

/-!
Verification of the `errors-convention` Rust crate (src/rust/src/lib.rs):
a closed `ErrorCode` enumeration, its mapping to HTTP status codes, the
`ErrorDetails` tagged variants, the `ApiError` envelope, its serde JSON
serialization/deserialization semantics, and the axum `into_response`
conversion. Serialization is modelled over an explicit JSON value type;
the serde derive semantics (SCREAMING_SNAKE_CASE rename of `ErrorCode`,
the internally tagged representation of `ErrorDetails` with tag field
`@type`, mandatory struct fields without defaults) are embedded as
explicit functions.
-/

namespace ErrorsConvention

/-- The closed ten-value error code enumeration of `lib.rs` lines 3-37. -/
inductive ErrorCode where
  | InvalidArgument
  | FailedPrecondition
  | NotFound
  | AlreadyExists
  | Unauthenticated
  | PermissionDenied
  | TooManyRequests
  | Internal
  | Unknown
  | Unavailable
deriving DecidableEq, Repr

/-- Embedding of `ErrorCode::get_http_code` (lib.rs lines 40-53): the code-to-status
match, with axum `http::StatusCode` constants written as their numeric
values (BAD_REQUEST = 400, NOT_FOUND = 404, CONFLICT = 409,
UNAUTHORIZED = 401, FORBIDDEN = 403, TOO_MANY_REQUESTS = 429,
INTERNAL_SERVER_ERROR = 500, SERVICE_UNAVAILABLE = 503). -/
def ErrorCode.get_http_code : ErrorCode → Nat
  | .InvalidArgument => 400
  | .FailedPrecondition => 400
  | .NotFound => 404
  | .AlreadyExists => 409
  | .Unauthenticated => 401
  | .PermissionDenied => 403
  | .TooManyRequests => 429
  | .Internal => 500
  | .Unknown => 500
  | .Unavailable => 503

/-- The serde `rename_all = "SCREAMING_SNAKE_CASE"` serialization of an
`ErrorCode` variant: the fixed upper-snake-case token. -/
def ErrorCode.toToken : ErrorCode → String
  | .InvalidArgument => "INVALID_ARGUMENT"
  | .FailedPrecondition => "FAILED_PRECONDITION"
  | .NotFound => "NOT_FOUND"
  | .AlreadyExists => "ALREADY_EXISTS"
  | .Unauthenticated => "UNAUTHENTICATED"
  | .PermissionDenied => "PERMISSION_DENIED"
  | .TooManyRequests => "TOO_MANY_REQUESTS"
  | .Internal => "INTERNAL"
  | .Unknown => "UNKNOWN"
  | .Unavailable => "UNAVAILABLE"

/-- The ten serialized tokens of the closed `ErrorCode` set. -/
def errorCodeTokens : List String :=
  ["INVALID_ARGUMENT", "FAILED_PRECONDITION", "NOT_FOUND", "ALREADY_EXISTS",
   "UNAUTHENTICATED", "PERMISSION_DENIED", "TOO_MANY_REQUESTS", "INTERNAL",
   "UNKNOWN", "UNAVAILABLE"]

/-- The serde deserialization of an `ErrorCode` from its string token:
the derived `Deserialize` accepts exactly the ten renamed variant tokens
and errors on any other string. -/
def ErrorCode.fromToken (s : String) : Option ErrorCode :=
  if s = "INVALID_ARGUMENT" then some .InvalidArgument
  else if s = "FAILED_PRECONDITION" then some .FailedPrecondition
  else if s = "NOT_FOUND" then some .NotFound
  else if s = "ALREADY_EXISTS" then some .AlreadyExists
  else if s = "UNAUTHENTICATED" then some .Unauthenticated
  else if s = "PERMISSION_DENIED" then some .PermissionDenied
  else if s = "TOO_MANY_REQUESTS" then some .TooManyRequests
  else if s = "INTERNAL" then some .Internal
  else if s = "UNKNOWN" then some .Unknown
  else if s = "UNAVAILABLE" then some .Unavailable
  else none

/-- Embedding of `FieldViolation` (lib.rs lines 56-60). -/
structure FieldViolation where
  field : String
  description : String
deriving DecidableEq, Repr

/-- Embedding of `ErrorDetails` (lib.rs lines 62-68): the internally tagged variant
set (`tag = "@type"`). The Rust `HashMap<String, String>` metadata is
modelled as its association list of entries in iteration order; serde
serializes the map entry by entry and deserialization rebuilds the same
map, so list-level round-trip is the faithful image of map equality. -/
inductive ErrorDetails where
  | ErrorInfo (reason : String) (metadata : List (String × String))
  | BadRequest (field_violations : List FieldViolation)
  | LocalizedMessage (locale : String) (message : String)
deriving DecidableEq, Repr

/-- Embedding of `ApiError` (lib.rs lines 70-79): the envelope with mandatory `code`,
`message` and `details` fields. -/
structure ApiError where
  code : ErrorCode
  message : String
  details : List ErrorDetails
deriving DecidableEq, Repr

/-- Embedding of `ApiError::new` (lib.rs lines 82-88). -/
def ApiError.new (code : ErrorCode) (message : String) : ApiError :=
  { code := code, message := message, details := [] }

/-- Embedding of `ApiError::with_details` (lib.rs lines 90-96). -/
def ApiError.with_details (code : ErrorCode) (message : String)
    (details : List ErrorDetails) : ApiError :=
  { code := code, message := message, details := details }

/-- JSON values as produced and consumed by serde_json for this data
model: strings, arrays and objects (an object is its ordered field
list). Numbers, booleans and null never occur in the wire
format. -/
inductive Json where
  | str : String → Json
  | arr : List Json → Json
  | obj : List (String × Json) → Json
deriving Repr

/-- First field of an object with the given key, the JSON object field
access used during deserialization. -/
def jlookup (fields : List (String × Json)) (key : String) : Option Json :=
  match fields with
  | [] => none
  | (k, v) :: rest => if k = key then some v else jlookup rest key

/-- Expect a JSON string, as serde does for a `String` field. -/
def asString : Json → Option String
  | .str s => some s
  | _ => none

/-- Expect a JSON object, as serde does for a struct or map. -/
def asObj : Json → Option (List (String × Json))
  | .obj fields => some fields
  | _ => none

/-- Expect a JSON array, as serde does for a `Vec`. -/
def asArr : Json → Option (List Json)
  | .arr items => some items
  | _ => none

/-- Element-wise fallible deserialization of a sequence, as serde does
for a `Vec`: the first failing element fails the whole sequence. -/
def omap {α β : Type} (f : α → Option β) : List α → Option (List β)
  | [] => some []
  | x :: xs => do
      let y ← f x
      let ys ← omap f xs
      pure (y :: ys)

/-- serde serialization of the `HashMap<String, String>` metadata: a
JSON object whose values are the strings. -/
def serializeMetadata (m : List (String × String)) : Json :=
  Json.obj (m.map (fun p => (p.1, Json.str p.2)))

/-- serde deserialization of the metadata map: every field value must
be a string. -/
def deserializeMetadata (j : Json) : Option (List (String × String)) := do
  let fields ← asObj j
  omap (fun p => (asString p.2).map (fun v => (p.1, v))) fields

/-- Derived `Serialize` for `FieldViolation`. -/
def FieldViolation.serialize (v : FieldViolation) : Json :=
  Json.obj [("field", Json.str v.field), ("description", Json.str v.description)]

/-- Derived `Deserialize` for `FieldViolation`: both fields mandatory. -/
def FieldViolation.deserialize (j : Json) : Option FieldViolation := do
  let fields ← asObj j
  let fj ← jlookup fields "field"
  let f ← asString fj
  let dj ← jlookup fields "description"
  let d ← asString dj
  pure { field := f, description := d }

/-- Derived `Serialize` for the internally tagged `ErrorDetails`: the
variant name goes into the `@type` field alongside the fields of the
variant. -/
def ErrorDetails.serialize : ErrorDetails → Json
  | .ErrorInfo reason metadata =>
      Json.obj [("@type", Json.str "ErrorInfo"), ("reason", Json.str reason),
                ("metadata", serializeMetadata metadata)]
  | .BadRequest fvs =>
      Json.obj [("@type", Json.str "BadRequest"),
                ("field_violations", Json.arr (fvs.map FieldViolation.serialize))]
  | .LocalizedMessage locale message =>
      Json.obj [("@type", Json.str "LocalizedMessage"),
                ("locale", Json.str locale), ("message", Json.str message)]

/-- Derived `Deserialize` for the internally tagged `ErrorDetails`: the
`@type` field selects the variant; a tag outside the three variant
names is an error (the internally tagged representation of serde rejects
unknown tags). -/
def ErrorDetails.deserialize (j : Json) : Option ErrorDetails := do
  let fields ← asObj j
  let tagJ ← jlookup fields "@type"
  let tag ← asString tagJ
  if tag = "ErrorInfo" then do
    let rj ← jlookup fields "reason"
    let r ← asString rj
    let mj ← jlookup fields "metadata"
    let m ← deserializeMetadata mj
    pure (.ErrorInfo r m)
  else if tag = "BadRequest" then do
    let fvj ← jlookup fields "field_violations"
    let items ← asArr fvj
    let fvs ← omap FieldViolation.deserialize items
    pure (.BadRequest fvs)
  else if tag = "LocalizedMessage" then do
    let lj ← jlookup fields "locale"
    let l ← asString lj
    let mj ← jlookup fields "message"
    let m ← asString mj
    pure (.LocalizedMessage l m)
  else none

/-- Derived `Serialize` for `ApiError`: all three fields are always
emitted, in declaration order. -/
def ApiError.serialize (e : ApiError) : Json :=
  Json.obj [("code", Json.str e.code.toToken),
            ("message", Json.str e.message),
            ("details", Json.arr (e.details.map ErrorDetails.serialize))]

/-- Derived `Deserialize` for `ApiError`: `code`, `message` and
`details` are all mandatory (no `serde(default)`), so absence of any of
them is an error. -/
def ApiError.deserialize (j : Json) : Option ApiError := do
  let fields ← asObj j
  let cj ← jlookup fields "code"
  let cs ← asString cj
  let code ← ErrorCode.fromToken cs
  let mj ← jlookup fields "message"
  let msg ← asString mj
  let dj ← jlookup fields "details"
  let items ← asArr dj
  let details ← omap ErrorDetails.deserialize items
  pure { code := code, message := msg, details := details }

/-- An axum response as visible to this module: the status code set from
`get_http_code` and the JSON body. -/
structure Response where
  status : Nat
  body : Json
deriving Repr

/-- Embedding of `impl IntoResponse for ApiError` (lib.rs lines 107-113): status from
`get_http_code`, body the serialized `ApiError`. -/
def ApiError.into_response (e : ApiError) : Response :=
  { status := e.code.get_http_code, body := e.serialize }

/-- C1: `get_http_code` is total over the closed ten-value `ErrorCode`
set (it is a Lean total function) and reproduces the table of spec §4.1
exactly: InvalidArgument and FailedPrecondition map to 400, NotFound to
404, AlreadyExists to 409, Unauthenticated to 401, PermissionDenied to
403, TooManyRequests to 429, Internal and Unknown to 500, Unavailable
to 503. -/
theorem get_http_code_table :
    ErrorCode.get_http_code .InvalidArgument = 400 ∧
    ErrorCode.get_http_code .FailedPrecondition = 400 ∧
    ErrorCode.get_http_code .NotFound = 404 ∧
    ErrorCode.get_http_code .AlreadyExists = 409 ∧
    ErrorCode.get_http_code .Unauthenticated = 401 ∧
    ErrorCode.get_http_code .PermissionDenied = 403 ∧
    ErrorCode.get_http_code .TooManyRequests = 429 ∧
    ErrorCode.get_http_code .Internal = 500 ∧
    ErrorCode.get_http_code .Unknown = 500 ∧
    ErrorCode.get_http_code .Unavailable = 503 := by
  decide

/-- C5: every `ErrorCode` variant serializes as the upper-snake-case
token identical to its variant name, for all ten variants. -/
theorem toToken_upper_snake :
    ErrorCode.toToken .InvalidArgument = "INVALID_ARGUMENT" ∧
    ErrorCode.toToken .FailedPrecondition = "FAILED_PRECONDITION" ∧
    ErrorCode.toToken .NotFound = "NOT_FOUND" ∧
    ErrorCode.toToken .AlreadyExists = "ALREADY_EXISTS" ∧
    ErrorCode.toToken .Unauthenticated = "UNAUTHENTICATED" ∧
    ErrorCode.toToken .PermissionDenied = "PERMISSION_DENIED" ∧
    ErrorCode.toToken .TooManyRequests = "TOO_MANY_REQUESTS" ∧
    ErrorCode.toToken .Internal = "INTERNAL" ∧
    ErrorCode.toToken .Unknown = "UNKNOWN" ∧
    ErrorCode.toToken .Unavailable = "UNAVAILABLE" :=
  ⟨rfl, rfl, rfl, rfl, rfl, rfl, rfl, rfl, rfl, rfl⟩

/-- C7: for every code and message, `ApiError::new` returns the
`ApiError` with exactly that code and message and empty details, and
agrees with `ApiError::with_details` at the empty sequence; it cannot
fail (it is a Lean total function). -/
theorem new_empty_details (code : ErrorCode) (message : String) :
    (ApiError.new code message).code = code ∧
    (ApiError.new code message).message = message ∧
    (ApiError.new code message).details = [] ∧
    ApiError.new code message = ApiError.with_details code message [] :=
  ⟨rfl, rfl, rfl, rfl⟩

/-- C8: for every code, message and details sequence,
`ApiError::with_details` stores the details sequence verbatim (same
list, same order) together with the given code and message; it cannot
fail (it is a Lean total function). -/
theorem with_details_verbatim (code : ErrorCode) (message : String)
    (details : List ErrorDetails) :
    (ApiError.with_details code message details).details = details ∧
    (ApiError.with_details code message details).code = code ∧
    (ApiError.with_details code message details).message = message :=
  ⟨rfl, rfl, rfl⟩

/-- C9: the serialized form of every `ApiError` is an object that
contains the `message` field (its string, possibly empty) and the
`details` field as an array (possibly empty); neither field is ever
omitted. -/
theorem serialize_mandatory_fields (e : ApiError) :
    ∃ fields, asObj e.serialize = some fields ∧
      jlookup fields "message" = some (Json.str e.message) ∧
      ∃ items, jlookup fields "details" = some (Json.arr items) := by
  refine ⟨[("code", Json.str e.code.toToken), ("message", Json.str e.message),
           ("details", Json.arr (e.details.map ErrorDetails.serialize))],
          rfl, ?_, e.details.map ErrorDetails.serialize, ?_⟩ <;> simp [jlookup]

theorem fromToken_toToken (c : ErrorCode) :
    ErrorCode.fromToken c.toToken = some c := by
  cases c <;> rfl

theorem fieldViolation_deser_ser (v : FieldViolation) :
    FieldViolation.deserialize v.serialize = some v := by
  rfl

theorem omap_map {α β : Type} (f : β → Option α) (g : α → β) (l : List α)
    (h : ∀ x ∈ l, f (g x) = some x) :
    omap f (l.map g) = some l := by
  induction l with
  | nil => rfl
  | cons x xs ih =>
      simp only [List.map_cons, omap, h x (List.mem_cons_self x xs),
        ih (fun y hy => h y (List.mem_cons_of_mem x hy))]
      rfl

theorem deserializeMetadata_serializeMetadata (m : List (String × String)) :
    deserializeMetadata (serializeMetadata m) = some m := by
  simp only [deserializeMetadata, serializeMetadata, asObj, Option.bind_eq_bind,
    Option.some_bind]
  exact omap_map _ _ m (fun x _ => by simp [asString])

theorem errorDetails_deser_ser (d : ErrorDetails) :
    ErrorDetails.deserialize d.serialize = some d := by
  cases d with
  | ErrorInfo reason metadata =>
      simp [ErrorDetails.serialize, ErrorDetails.deserialize, asObj, asString,
        jlookup, deserializeMetadata_serializeMetadata]
  | BadRequest fvs =>
      simp [ErrorDetails.serialize, ErrorDetails.deserialize, asObj, asString,
        asArr, jlookup,
        omap_map FieldViolation.deserialize FieldViolation.serialize fvs
          (fun v _ => fieldViolation_deser_ser v)]
  | LocalizedMessage locale message =>
      simp [ErrorDetails.serialize, ErrorDetails.deserialize, asObj, asString,
        jlookup]

/-- C2: serializing any `ApiError` (any of the ten codes, any message
string including empty or non-ASCII, any finite details sequence mixing
the three variants in any order) and deserializing the result yields the
original value, details order preserved. -/
theorem deserialize_serialize_roundtrip (e : ApiError) :
    ApiError.deserialize e.serialize = some e := by
  obtain ⟨code, message, details⟩ := e
  simp [ApiError.serialize, ApiError.deserialize, asObj, asString, asArr,
    jlookup, fromToken_toToken,
    omap_map ErrorDetails.deserialize ErrorDetails.serialize details
      (fun d _ => errorDetails_deser_ser d)]

/-- C4: `into_response` on any `ApiError` yields the status given by
`get_http_code` of its code and the serialized `ApiError` as body; in
particular when the code is `NotFound` the status is 404 and the `code` field of
the body is exactly the string `NOT_FOUND`. -/
theorem into_response_status_and_body (e : ApiError) :
    e.into_response.status = e.code.get_http_code ∧
    e.into_response.body = e.serialize ∧
    (e.code = ErrorCode.NotFound →
      e.into_response.status = 404 ∧
      (asObj e.into_response.body).bind (fun fields => jlookup fields "code")
        = some (Json.str "NOT_FOUND")) := by
  refine ⟨rfl, rfl, fun h => ⟨?_, ?_⟩⟩
  · simp [ApiError.into_response, h, ErrorCode.get_http_code]
  · simp [ApiError.into_response, ApiError.serialize, asObj, jlookup, h,
      ErrorCode.toToken]

/-- Witness for C4 at `ApiError::new(NotFound, "user 42 not found")`. -/
theorem into_response_status_and_body_witness :
    (ApiError.new ErrorCode.NotFound "user 42 not found").into_response.status
      = 404 ∧
    (asObj (ApiError.new ErrorCode.NotFound
        "user 42 not found").into_response.body).bind
      (fun fields => jlookup fields "code") = some (Json.str "NOT_FOUND") :=
  (into_response_status_and_body
    (ApiError.new ErrorCode.NotFound "user 42 not found")).2.2 rfl

/-- C6: deserialization of the `code` token fails (returns `none`, the
error outcome) for every string outside the ten fixed upper-snake-case
tokens: the code set is closed. -/
theorem fromToken_rejects_outside (s : String) (h : s ∉ errorCodeTokens) :
    ErrorCode.fromToken s = none := by
  simp only [errorCodeTokens, List.mem_cons, List.not_mem_nil, or_false,
    not_or] at h
  obtain ⟨h1, h2, h3, h4, h5, h6, h7, h8, h9, h10⟩ := h
  simp [ErrorCode.fromToken, h1, h2, h3, h4, h5, h6, h7, h8, h9, h10]

/-- Witness for C6 at the token `TEAPOT`. -/
theorem fromToken_rejects_outside_witness :
    "TEAPOT" ∉ errorCodeTokens ∧ ErrorCode.fromToken "TEAPOT" = none :=
  ⟨by decide, fromToken_rejects_outside "TEAPOT" (by decide)⟩

theorem omap_eq_none_of_mem {α β : Type} (f : α → Option β) (l : List α)
    (x : α) (hmem : x ∈ l) (hx : f x = none) : omap f l = none := by
  induction l with
  | nil => cases hmem
  | cons y ys ih =>
      rcases List.mem_cons.mp hmem with h | h
      · subst h
        simp [omap, hx]
      · cases hfy : f y <;> simp [omap, hfy, ih h]

/-- C3 counterexample: deserializing a details array holding one
recognized `LocalizedMessage` entry and one entry with the unrecognized
tag `RetryInfo` fails outright (returns `none`), instead of succeeding
with the recognized entry preserved: the internally tagged serde enum has
no lenient mode. -/
theorem details_unknown_tag_fails_concrete :
    omap ErrorDetails.deserialize
      [Json.obj [("@type", Json.str "LocalizedMessage"),
                 ("locale", Json.str "en"), ("message", Json.str "hello")],
       Json.obj [("@type", Json.str "RetryInfo"),
                 ("retry_delay", Json.str "5s")]] = none := by
  rfl

/-- C3 amended: default deserialization of a details array containing
any entry whose `@type` tag is outside the three variant names raises an
error (the whole array fails to deserialize); unknown tags are rejected,
not dropped, and the recognized entries are not preserved. -/
theorem details_unknown_tag_fails (l : List Json)
    (fields : List (String × Json)) (tag : String)
    (hmem : Json.obj fields ∈ l)
    (htag : jlookup fields "@type" = some (Json.str tag))
    (h1 : tag ≠ "ErrorInfo") (h2 : tag ≠ "BadRequest")
    (h3 : tag ≠ "LocalizedMessage") :
    omap ErrorDetails.deserialize l = none := by
  refine omap_eq_none_of_mem _ l (Json.obj fields) hmem ?_
  simp [ErrorDetails.deserialize, asObj, htag, asString, h1, h2, h3]

/-- Witness for the amended statement of C3 at a concrete array mixing an
`ErrorInfo` entry with an entry tagged `Help`. -/
theorem details_unknown_tag_fails_witness :
    omap ErrorDetails.deserialize
      [Json.obj [("@type", Json.str "ErrorInfo"), ("reason", Json.str "X"),
                 ("metadata", Json.obj [])],
       Json.obj [("@type", Json.str "Help"), ("url", Json.str "u")]]
      = none :=
  details_unknown_tag_fails _
    [("@type", Json.str "Help"), ("url", Json.str "u")] "Help"
    (List.mem_cons_of_mem _ (List.mem_cons_self _ _)) rfl
    (by decide) (by decide) (by decide)

/-- C10: deserializing an object whose `message` key or whose `details`
key is absent fails (returns `none`) rather than defaulting the missing
field. -/
theorem deserialize_missing_field_fails (fields : List (String × Json))
    (h : jlookup fields "message" = none ∨ jlookup fields "details" = none) :
    ApiError.deserialize (Json.obj fields) = none := by
  simp only [ApiError.deserialize, asObj, Option.bind_eq_bind, Option.some_bind]
  cases hc : jlookup fields "code" with
  | none => rfl
  | some cj =>
      simp only [Option.some_bind]
      cases hcs : asString cj with
      | none => rfl
      | some cs =>
          simp only [Option.some_bind]
          cases hcode : ErrorCode.fromToken cs with
          | none => rfl
          | some code =>
              simp only [Option.some_bind]
              rcases h with h | h
              · simp [h]
              · cases hm : jlookup fields "message" with
                | none => rfl
                | some mj =>
                    simp only [Option.some_bind]
                    cases hms : asString mj with
                    | none => rfl
                    | some msg => simp [h]

/-- Witness for C10 at a payload carrying `code` and `message` but no
`details` key. -/
theorem deserialize_missing_field_fails_witness :
    (jlookup [("code", Json.str "NOT_FOUND"), ("message", Json.str "")]
        "message" = none ∨
     jlookup [("code", Json.str "NOT_FOUND"), ("message", Json.str "")]
        "details" = none) ∧
    ApiError.deserialize
      (Json.obj [("code", Json.str "NOT_FOUND"), ("message", Json.str "")])
      = none :=
  ⟨Or.inr rfl, deserialize_missing_field_fails _ (Or.inr rfl)⟩

end ErrorsConvention
